import Mathlib

/-!
Verification development for the RecTools repository slice consisting of
`rectools/utils/array_set_ops.py` (vectorized set operations) and
`rectools/models/dssm_no_interactions.py` (the DSSM-without-interactions
two-tower model).

Part 1 embeds the array set-operation utilities over `Int` lists.
Part 2 embeds the neural model over real vectors with abstract activation.
-/

/-! ## Part 1: array set operations (`rectools/utils/array_set_ops.py`) -/

/-- Numpy dtypes as they matter to the utilities: every integer dtype is
collapsed into `int`, non-integer numeric dtypes into `float`, boxed dtypes
into `obj`.  `np.issubdtype (arr.dtype, np.integer)` is modelled as
`dtype = int`. -/
inductive NpDtype where
  | int
  | float
  | obj
  deriving DecidableEq

/-- Distinguishable runtime errors of the utilities.  `typeError` models
Python `TypeError`, `shapeError` models the `ValueError`s raised by the
explicit ndim / column-count checks, and `negativeIndexError` models the
`ValueError("negative row/column index found")` raised inside
`scipy.sparse` coordinate-matrix construction. -/
inductive NpError where
  | typeError
  | shapeError
  | negativeIndexError
  deriving DecidableEq

/-- A numpy array as seen by the two row-dedup utilities: its dtype, its
number of dimensions, its rows when viewed as a 2-d integer array (only
meaningful when `ndim = 2` and `dtype = int`), and its second shape
component `ncols = shape[1]`. -/
structure NpArray2D where
  dtype : NpDtype
  ndim : Nat
  rows : List (List Int)
  ncols : Nat

/-- Lexicographic comparison of rows.  `np.unique` on the void-blob view of
a row-major integer matrix sorts rows under some total order on the byte
blobs; since `fast_2d_int_unique` promises nothing about the output order,
the model fixes the lexicographic order on the row contents, which is a
total order on rows just as the byte order is. -/
def rowLe : List Int → List Int → Bool
  | [], _ => true
  | _ :: _, [] => false
  | a :: as, b :: bs => if a < b then true else if b < a then false else rowLe as bs

/-- `rowLe` as a decidable relation, for use with `List.insertionSort`. -/
def rowLeP (a b : List Int) : Prop := rowLe a b = true

instance : DecidableRel rowLeP := fun a b => inferInstanceAs (Decidable (rowLe a b = true))

/-- Position of the first occurrence of a row in a list of rows. -/
def idxOfRow (r : List Int) : List (List Int) → Nat
  | [] => 0
  | x :: xs => if x = r then 0 else idxOfRow r xs + 1

/-- Model of `np.unique(consolidated, return_inverse=True)` where
`consolidated` is the void-blob view of the rows of a 2-d integer array.
The blob view is an injective encoding of rows (same dtype, same width), so
uniqueness and inverse indices over blobs coincide with uniqueness and
inverse indices over rows: the result is the deduplicated rows in sorted
order together with, for every input row, the index of its unique
representative. -/
def np_unique_rows (xs : List (List Int)) : List (List Int) × List Nat :=
  let unq := List.insertionSort rowLeP xs.dedup
  (unq, xs.map fun r => idxOfRow r unq)

/-- Embedding of `fast_2d_int_unique`: dtype check, ndim check, then the
`np.unique` call on the consolidated row view. -/
def fast_2d_int_unique (arr : NpArray2D) : Except NpError (List (List Int) × List Nat) :=
  if arr.dtype ≠ NpDtype.int then Except.error NpError.typeError
  else if arr.ndim ≠ 2 then Except.error NpError.shapeError
  else Except.ok (np_unique_rows arr.rows)

/-- Row-major order on coordinate pairs: first component ascending, ties
broken by the second component ascending.  This is the order in which
`csr_matrix.tocoo` reads back nonzero coordinates. -/
def pairLe (a b : Int × Int) : Prop := a.1 < b.1 ∨ (a.1 = b.1 ∧ a.2 ≤ b.2)

instance : DecidableRel pairLe := fun a b =>
  inferInstanceAs (Decidable (a.1 < b.1 ∨ (a.1 = b.1 ∧ a.2 ≤ b.2)))

instance : IsTotal (Int × Int) pairLe :=
  ⟨by intro a b; unfold pairLe; omega⟩

instance : IsTrans (Int × Int) pairLe :=
  ⟨by intro a b c; unfold pairLe; omega⟩

/-- View the rows of a 2-column integer array as coordinate pairs
(`arr[:, 0]` and `arr[:, 1]`). -/
def toPairs (rows : List (List Int)) : List (Int × Int) :=
  rows.map fun r => (r.getD 0 0, r.getD 1 0)

/-- Model of building `sparse.csr_matrix((ones, (col0, col1)))` and reading
back `tocoo().row / .col`: scipy rejects any negative coordinate with a
`ValueError` during construction; otherwise duplicate coordinates are
merged and the nonzero coordinates come back deduplicated in row-major
(sorted, canonical) order. -/
def scipy_coo_unique (l : List (Int × Int)) : Except NpError (List (Int × Int)) :=
  if l.any fun p => p.1 < 0 || p.2 < 0 then Except.error NpError.negativeIndexError
  else Except.ok (List.insertionSort pairLe l.dedup)

/-- Embedding of `fast_2d_2col_int_unique`: dtype check, ndim check, column
count check, the explicit empty-input early return, then the sparse-matrix
dedup path. -/
def fast_2d_2col_int_unique (arr : NpArray2D) : Except NpError (List (Int × Int)) :=
  if arr.dtype ≠ NpDtype.int then Except.error NpError.typeError
  else if arr.ndim ≠ 2 then Except.error NpError.shapeError
  else if arr.ncols ≠ 2 then Except.error NpError.shapeError
  else if arr.rows.length = 0 then Except.ok (toPairs arr.rows)
  else scipy_coo_unique (toPairs arr.rows)

/-- Embedding of `fast_isin` over integer arrays.  Both branches of the
source dispatch (`pd.Series(...).isin(...)` for object dtypes, `np.isin`
otherwise) compute elementwise membership; the model is the membership
predicate mapped over the elements. -/
def fast_isin (elements test_elements : List Int) : List Bool :=
  elements.map fun e => decide (e ∈ test_elements)

/-- Model of `np.sort` on a 1-d integer array. -/
def np_sort (l : List Int) : List Int :=
  List.insertionSort (fun a b => a ≤ b) l

/-- Model of `np.searchsorted(a, v, side="left")` under its documented
contract for sorted `a`: the number of entries strictly below `v`. -/
def searchsorted_left (a : List Int) (v : Int) : Nat :=
  a.countP fun x => decide (x < v)

/-- Model of `np.searchsorted(a, v, side="right")` under its documented
contract for sorted `a`: the number of entries not above `v`. -/
def searchsorted_right (a : List Int) (v : Int) : Nat :=
  a.countP fun x => decide (x ≤ v)

/-- Embedding of `fast_isin_for_sorted_test_elements`: for each element the
left and right insertion points are compared; membership is declared when
they differ by exactly one, and `invert` flips the boolean. -/
def fast_isin_for_sorted_test_elements
    (elements sorted_test_elements : List Int) (invert : Bool) : List Bool :=
  elements.map fun e =>
    let ss_result_left := searchsorted_left sorted_test_elements e
    let ss_result_right := searchsorted_right sorted_test_elements e
    if invert then decide (ss_result_right ≠ ss_result_left + 1)
    else decide (ss_result_right = ss_result_left + 1)

/-! ## Part 2: DSSM without interactions
(`rectools/models/dssm_no_interactions.py`)

Tensors are modelled over the reals: a feature vector of width `d` is
`Fin d → ℝ`, a batch is a list of vectors, and an `nn.Linear(d, n,
bias=False)` layer is its weight matrix `Matrix (Fin n) (Fin d) ℝ` acting
by `mulVec`.  The activation is carried as a function parameter just as the
source carries an activation callable. -/

/-- Parameters of `ItemNet`: three bias-free linear layers and the
activation callable, as constructed in `ItemNet.__init__`. -/
structure ItemNet (nFactors dimInput : Nat) where
  embedding_layer : Matrix (Fin nFactors) (Fin dimInput) ℝ
  dense_layer : Matrix (Fin nFactors) (Fin nFactors) ℝ
  output_layer : Matrix (Fin nFactors) (Fin nFactors) ℝ
  activation : ℝ → ℝ

/-- Embedding of `ItemNet.forward`, line for line: `emb`, `features`,
`x = emb + features`, final projection. -/
noncomputable def ItemNet.forward {nF dI : Nat} (net : ItemNet nF dI)
    (item_features : Fin dI → ℝ) : Fin nF → ℝ :=
  let emb := fun i => net.activation (net.embedding_layer.mulVec item_features i)
  let features := fun i => net.activation (net.dense_layer.mulVec emb i)
  let x := emb + features
  net.output_layer.mulVec x

/-- Parameters of `UserNet`: same shape as `ItemNet` with independent
weights, as constructed in `UserNet.__init__`. -/
structure UserNet (nFactors dimInput : Nat) where
  embedding_features_layer : Matrix (Fin nFactors) (Fin dimInput) ℝ
  features_dense_layer : Matrix (Fin nFactors) (Fin nFactors) ℝ
  output_layer : Matrix (Fin nFactors) (Fin nFactors) ℝ
  activation : ℝ → ℝ

/-- Embedding of `UserNet.forward`: `features_emb`, `features_dense`,
`features_x`, final projection. -/
noncomputable def UserNet.forward {nF dU : Nat} (net : UserNet nF dU)
    (user_features : Fin dU → ℝ) : Fin nF → ℝ :=
  let features_emb := fun i => net.activation (net.embedding_features_layer.mulVec user_features i)
  let features_dense := fun i => net.activation (net.features_dense_layer.mulVec features_emb i)
  let features_x := features_emb + features_dense
  net.output_layer.mulVec features_x

/-- State of a `DSSMNoInteractions` module: the two towers and the scalar
hyperparameters stored by `__init__`. -/
structure DSSMNoInteractions (nFu nFi dU dI : Nat) where
  user_net : UserNet nFu dU
  item_net : ItemNet nFi dI
  lr : ℝ
  triplet_loss_margin : ℝ
  weight_decay : ℝ
  log_to_prog_bar : Bool

/-- Embedding of `DSSMNoInteractions.forward`.  The argument order is the
source signature's order: `(item_features_pos, item_features_neg,
user_features)`. -/
noncomputable def DSSMNoInteractions.forward {nFu nFi dU dI : Nat}
    (m : DSSMNoInteractions nFu nFi dU dI)
    (item_features_pos item_features_neg : List (Fin dI → ℝ))
    (user_features : List (Fin dU → ℝ)) :
    List (Fin nFu → ℝ) × List (Fin nFi → ℝ) × List (Fin nFi → ℝ) :=
  let anchor := user_features.map m.user_net.forward
  let pos := item_features_pos.map m.item_net.forward
  let neg := item_features_neg.map m.item_net.forward
  (anchor, pos, neg)

/-- Euclidean distance of two vectors.  This is the documented semantics of
`torch.nn.functional.pairwise_distance` with `p = 2` (its `eps = 1e-6`
numerical-stability shift is a floating-point artifact not modelled over
the reals). -/
noncomputable def pairwise_distance {n : Nat} (x y : Fin n → ℝ) : ℝ :=
  Real.sqrt (∑ i, (x i - y i) ^ 2)

/-- Documented semantics of `torch.nn.functional.triplet_margin_loss` with
default `p = 2`, `swap = False`, `reduction = "mean"`: per-sample
`max (d(a, p) − d(a, n) + margin, 0)`, averaged over the batch. -/
noncomputable def triplet_margin_loss {n : Nat} (margin : ℝ)
    (t : List ((Fin n → ℝ) × (Fin n → ℝ) × (Fin n → ℝ))) : ℝ :=
  (t.map fun s =>
    max (pairwise_distance s.1 s.2.1 - pairwise_distance s.1 s.2.2 + margin) 0).sum / t.length

/-- Embedding of `DSSMNoInteractions.training_step`: unpack the batch, run
`self(pos, neg, user_features)`, compute the triplet margin loss with the
configured margin.  The loss value is returned; the `self.log` side channel
is not part of the value semantics. -/
noncomputable def DSSMNoInteractions.training_step {nF dU dI : Nat}
    (m : DSSMNoInteractions nF nF dU dI)
    (batch : List (Fin dU → ℝ) × List (Fin dI → ℝ) × List (Fin dI → ℝ)) : ℝ :=
  let user_features := batch.1
  let pos := batch.2.1
  let neg := batch.2.2
  let out := m.forward pos neg user_features
  triplet_margin_loss m.triplet_loss_margin (out.1.zip (out.2.1.zip out.2.2))

/-- Embedding of `DSSMNoInteractions.validation_step`: the same computation
as `training_step`, logged under a different name. -/
noncomputable def DSSMNoInteractions.validation_step {nF dU dI : Nat}
    (m : DSSMNoInteractions nF nF dU dI)
    (batch : List (Fin dU → ℝ) × List (Fin dI → ℝ) × List (Fin dI → ℝ)) : ℝ :=
  let user_features := batch.1
  let pos := batch.2.1
  let neg := batch.2.2
  let out := m.forward pos neg user_features
  triplet_margin_loss m.triplet_loss_margin (out.1.zip (out.2.1.zip out.2.2))

/-- Mutable state of the Lightning module during inference: the model
parameters plus the `training` mode flag toggled by `self.eval()`. -/
structure ModuleState (nFu nFi dU dI : Nat) where
  model : DSSMNoInteractions nFu nFi dU dI
  training : Bool

/-- Model of `self.eval()`: clears the training flag, touches no weights. -/
def ModuleState.evalMode {nFu nFi dU dI : Nat} (s : ModuleState nFu nFi dU dI) :
    ModuleState nFu nFi dU dI :=
  { s with training := false }

/-- Model of `torch.cat(batches, dim=0)`: concatenation along the batch
dimension, which raises when handed an empty list of tensors. -/
def torchCat {α : Type} (batches : List (List α)) : Option (List α) :=
  if batches.isEmpty then none else some batches.flatten

/-- Embedding of `DSSMNoInteractions.inference_items`: switch to eval mode,
map the item tower over every batch the dataloader yields, concatenate.
The returned pair carries the inference result and the module state after
the call. -/
noncomputable def ModuleState.inference_items {nFu nFi dU dI : Nat}
    (s : ModuleState nFu nFi dU dI) (dataloader : List (List (Fin dI → ℝ))) :
    Option (List (Fin nFi → ℝ)) × ModuleState nFu nFi dU dI :=
  let s2 := s.evalMode
  (torchCat (dataloader.map fun batch => batch.map s2.model.item_net.forward), s2)

/-- Embedding of `DSSMNoInteractions.inference_users`: same procedure with
the user tower. -/
noncomputable def ModuleState.inference_users {nFu nFi dU dI : Nat}
    (s : ModuleState nFu nFi dU dI) (dataloader : List (List (Fin dU → ℝ))) :
    Option (List (Fin nFu → ℝ)) × ModuleState nFu nFi dU dI :=
  let s2 := s.evalMode
  (torchCat (dataloader.map fun batch => batch.map s2.model.user_net.forward), s2)

/-- Tower shape transcribed from the specification text: `base` is the
activated first projection, `residual` the activated second projection of
`base`, and the output is the final bias-free projection of
`base + residual` with no nonlinearity. -/
noncomputable def specTowerOutput {nF dIn : Nat} (wEmb : Matrix (Fin nF) (Fin dIn) ℝ)
    (wDense wOut : Matrix (Fin nF) (Fin nF) ℝ) (act : ℝ → ℝ) (x : Fin dIn → ℝ) : Fin nF → ℝ :=
  let base := fun i => act (wEmb.mulVec x i)
  let residual := fun i => act (wDense.mulVec base i)
  wOut.mulVec (base + residual)

/-- A concrete 1-factor, 1-input item tower whose forward map is the
identity: identity embedding layer, zero dense layer, identity output
layer, identity activation. -/
noncomputable def idItemNet : ItemNet 1 1 := ⟨1, 0, 1, id⟩

/-- A concrete 1-factor, 1-input user tower whose forward map is the
identity. -/
noncomputable def idUserNet : UserNet 1 1 := ⟨1, 0, 1, id⟩

/-- A concrete `DSSMNoInteractions` model built from the identity towers
with the constructor's default hyperparameters. -/
noncomputable def idModel : DSSMNoInteractions 1 1 1 1 :=
  ⟨idUserNet, idItemNet, 0.01, 0.4, 0.000001, true⟩

/-- The constant one-dimensional feature vector with the given value. -/
def cVec (r : ℝ) : Fin 1 → ℝ := fun _ => r

/-- A concrete module state wrapping `idModel`, initially in training
mode. -/
noncomputable def idState : ModuleState 1 1 1 1 := ⟨idModel, true⟩

/-! ### Helper lemmas for Part 1 -/

lemma np_unique_rows_fst_nodup (xs : List (List Int)) : (np_unique_rows xs).1.Nodup := by
  unfold np_unique_rows
  exact (List.perm_insertionSort rowLeP xs.dedup).nodup_iff.mpr xs.nodup_dedup

lemma mem_np_unique_rows_fst {xs : List (List Int)} {r : List Int} :
    r ∈ (np_unique_rows xs).1 ↔ r ∈ xs := by
  unfold np_unique_rows
  rw [(List.perm_insertionSort rowLeP xs.dedup).mem_iff, List.mem_dedup]

lemma getD_idxOfRow {r : List Int} {l : List (List Int)} (h : r ∈ l) :
    l.getD (idxOfRow r l) [] = r := by
  induction l with
  | nil => cases h
  | cons x xs ih =>
    by_cases hx : x = r
    · simp [idxOfRow, hx]
    · have hmem : r ∈ xs := by
        rcases List.mem_cons.mp h with h1 | h1
        · exact absurd h1.symm hx
        · exact h1
      rw [idxOfRow, if_neg hx, List.getD_cons_succ]
      exact ih hmem

lemma np_unique_rows_reconstruct (xs : List (List Int)) {i : Nat} (h : i < xs.length) :
    (np_unique_rows xs).1.getD ((np_unique_rows xs).2.getD i 0) [] = xs.getD i [] := by
  have hrow : xs.getD i [] = xs.get ⟨i, h⟩ := by
    rw [List.getD_eq_getElem?_getD, List.getElem?_eq_getElem h]
    rfl
  have hmem : xs.get ⟨i, h⟩ ∈ (np_unique_rows xs).1 :=
    mem_np_unique_rows_fst.mpr (List.get_mem xs i h)
  have hidx : (np_unique_rows xs).2.getD i 0 = idxOfRow (xs.get ⟨i, h⟩) (np_unique_rows xs).1 := by
    show (xs.map fun r => idxOfRow r (np_unique_rows xs).1).getD i 0 = _
    rw [List.getD_eq_getElem?_getD, List.getElem?_map, List.getElem?_eq_getElem h]
    rfl
  rw [hidx, hrow, getD_idxOfRow hmem]

lemma toPairs_map_pair (l : List (Int × Int)) :
    toPairs (l.map fun p => [p.1, p.2]) = l := by
  induction l with
  | nil => rfl
  | cons a t ih => simpa [toPairs] using congrArg (List.cons a) (by simpa [toPairs] using ih)

lemma toPairs_nil : toPairs [] = [] := rfl

lemma scipy_coo_unique_not_shape (l : List (Int × Int)) :
    scipy_coo_unique l ≠ Except.error NpError.shapeError ∧
    scipy_coo_unique l ≠ Except.error NpError.typeError := by
  unfold scipy_coo_unique
  split <;> simp

lemma countP_le_eq_countP_lt_add_count (l : List Int) (v : Int) :
    (l.countP fun x => decide (x ≤ v)) = (l.countP fun x => decide (x < v)) + l.count v := by
  induction l with
  | nil => simp
  | cons a t ih =>
    simp only [List.countP_cons, List.count_cons, ih, beq_iff_eq, decide_eq_true_eq]
    split_ifs <;> omega

/-! ### Helper lemmas for Part 2 -/

lemma zip_map₃ {α β γ α2 β2 γ2 : Type} (f : α → α2) (g : β → β2) (h : γ → γ2)
    (u : List α) (p : List β) (n : List γ) :
    (u.map f).zip ((p.map g).zip (n.map h)) =
      (u.zip (p.zip n)).map fun t => (f t.1, g t.2.1, h t.2.2) := by
  rw [List.zip_map, List.zip_map]
  refine List.map_congr_left fun t _ => ?_
  rcases t with ⟨a, b, c⟩
  rfl

lemma training_step_eq {nF dU dI : Nat} (m : DSSMNoInteractions nF nF dU dI)
    (u : List (Fin dU → ℝ)) (p n : List (Fin dI → ℝ)) :
    m.training_step (u, p, n) =
      triplet_margin_loss m.triplet_loss_margin
        ((u.map m.user_net.forward).zip
          ((p.map m.item_net.forward).zip (n.map m.item_net.forward))) := rfl

lemma triplet_margin_loss_nonneg {n : Nat} (margin : ℝ)
    (t : List ((Fin n → ℝ) × (Fin n → ℝ) × (Fin n → ℝ))) :
    0 ≤ triplet_margin_loss margin t := by
  unfold triplet_margin_loss
  refine div_nonneg (List.sum_nonneg fun x hx => ?_) (Nat.cast_nonneg _)
  obtain ⟨s, _, rfl⟩ := List.mem_map.mp hx
  exact le_max_right _ 0

lemma idItemNet_forward (v : Fin 1 → ℝ) : idItemNet.forward v = v := by
  funext i
  simp [ItemNet.forward, idItemNet, Matrix.one_mulVec, Matrix.zero_mulVec]

lemma idUserNet_forward (v : Fin 1 → ℝ) : idUserNet.forward v = v := by
  funext i
  simp [UserNet.forward, idUserNet, Matrix.one_mulVec, Matrix.zero_mulVec]

lemma torchCat_map {α β : Type} (f : α → β) (dl : List (List α)) (h : dl ≠ []) :
    torchCat (dl.map fun b => b.map f) = some (dl.flatten.map f) := by
  unfold torchCat
  rw [if_neg, List.map_flatten]
  simp [List.isEmpty_iff, h]

/-! ### Claims about the set-operation utilities -/

/-- C6: `fast_2d_int_unique` on a 2-d integer array passes its checks and
returns `(unq, inv)` such that `unq` has no duplicate rows and
`unq[inv[i]] = arr[i]` for every row index `i`. -/
theorem fast_2d_int_unique_spec (l : List (List Int)) (m : Nat) :
    fast_2d_int_unique ⟨NpDtype.int, 2, l, m⟩ = Except.ok (np_unique_rows l) ∧
    (np_unique_rows l).1.Nodup ∧
    ∀ i, i < l.length →
      (np_unique_rows l).1.getD ((np_unique_rows l).2.getD i 0) [] = l.getD i [] :=
  ⟨rfl, np_unique_rows_fst_nodup l, fun _ hi => np_unique_rows_reconstruct l hi⟩

/-- C6 witness: the claim evaluated on the concrete matrix
`[[1,2],[3,4],[1,2]]`. -/
theorem fast_2d_int_unique_spec_witness :
    (np_unique_rows [[1, 2], [3, 4], [1, 2]]).1.Nodup ∧
    (np_unique_rows [[1, 2], [3, 4], [1, 2]]).1.getD
      ((np_unique_rows [[1, 2], [3, 4], [1, 2]]).2.getD 2 0) [] = [1, 2] := by
  have h := fast_2d_int_unique_spec [[1, 2], [3, 4], [1, 2]] 2
  exact ⟨h.2.1, (h.2.2 2 (by decide)).trans (by decide)⟩

/-- C7 counterexample: on the 2-column integer matrix `[[-1, 0]]` the
function raises inside the sparse construction instead of returning the
distinct pairs, so the claim does not cover matrices with negative
entries. -/
theorem fast_2d_2col_int_unique_cex :
    fast_2d_2col_int_unique ⟨NpDtype.int, 2, [[-1, 0]], 2⟩ =
      Except.error NpError.negativeIndexError := rfl

/-- C7 (amended with non-negative entries): `fast_2d_2col_int_unique` on a
2-column integer matrix with non-negative entries returns exactly the
distinct (col0, col1) pairs of the input, each exactly once, sorted
ascending by column 0 and, within equal column-0 values, by column 1. -/
theorem fast_2d_2col_int_unique_spec (l : List (Int × Int))
    (hnn : ∀ q ∈ l, 0 ≤ q.1 ∧ 0 ≤ q.2) :
    ∃ out, fast_2d_2col_int_unique ⟨NpDtype.int, 2, l.map fun q => [q.1, q.2], 2⟩ =
        Except.ok out ∧
      (∀ q, q ∈ out ↔ q ∈ l) ∧ out.Nodup ∧
      out.Pairwise fun a b => a.1 < b.1 ∨ (a.1 = b.1 ∧ a.2 ≤ b.2) := by
  unfold fast_2d_2col_int_unique
  rw [if_neg (by simp), if_neg (by simp), if_neg (by simp)]
  by_cases hl : l = []
  · subst hl
    rw [if_pos (by simp)]
    exact ⟨[], rfl, by simp, List.nodup_nil, List.Pairwise.nil⟩
  · rw [if_neg (by simp [List.length_eq_zero, hl]), toPairs_map_pair]
    unfold scipy_coo_unique
    rw [if_neg]
    · refine ⟨_, rfl, ?_, ?_, ?_⟩
      · intro q
        rw [(List.perm_insertionSort pairLe l.dedup).mem_iff, List.mem_dedup]
      · exact (List.perm_insertionSort pairLe l.dedup).nodup_iff.mpr l.nodup_dedup
      · exact List.sorted_insertionSort pairLe l.dedup
    · simp only [List.any_eq_true, Bool.or_eq_true, decide_eq_true_eq, not_exists, not_and,
        not_or, not_lt]
      intro q hq
      exact ⟨(hnn q hq).1, (hnn q hq).2⟩

/-- C7 witness: the amended claim evaluated on the spec's own example
`[[2,1],[1,1],[1,1],[2,0]]`. -/
theorem fast_2d_2col_int_unique_spec_witness :
    (∀ q ∈ ([(2, 1), (1, 1), (1, 1), (2, 0)] : List (Int × Int)), 0 ≤ q.1 ∧ 0 ≤ q.2) ∧
    ∃ out, fast_2d_2col_int_unique
        ⟨NpDtype.int, 2,
          ([(2, 1), (1, 1), (1, 1), (2, 0)] : List (Int × Int)).map fun q => [q.1, q.2], 2⟩ =
        Except.ok out ∧
      (∀ q, q ∈ out ↔ q ∈ ([(2, 1), (1, 1), (1, 1), (2, 0)] : List (Int × Int))) ∧
      out.Nodup ∧
      out.Pairwise fun a b => a.1 < b.1 ∨ (a.1 = b.1 ∧ a.2 ≤ b.2) :=
  ⟨by decide, fast_2d_2col_int_unique_spec _ (by decide)⟩

/-- C10: a non-empty 2-column integer input passing the dtype and shape
checks but containing a negative entry makes `fast_2d_2col_int_unique`
raise from the sparse-matrix construction instead of returning a result. -/
theorem fast_2d_2col_int_unique_negative (l : List (Int × Int)) (hne : l ≠ [])
    (hneg : ∃ q ∈ l, q.1 < 0 ∨ q.2 < 0) :
    fast_2d_2col_int_unique ⟨NpDtype.int, 2, l.map fun q => [q.1, q.2], 2⟩ =
      Except.error NpError.negativeIndexError := by
  unfold fast_2d_2col_int_unique
  rw [if_neg (by simp), if_neg (by simp), if_neg (by simp),
    if_neg (by simp [List.length_eq_zero, hne]), toPairs_map_pair]
  unfold scipy_coo_unique
  rw [if_pos]
  simp only [List.any_eq_true, Bool.or_eq_true, decide_eq_true_eq]
  exact hneg

/-- C10 witness: the negative-entry failure evaluated on `[[0, -5]]`. -/
theorem fast_2d_2col_int_unique_negative_witness :
    (([(0, -5)] : List (Int × Int)) ≠ [] ∧
      ∃ q ∈ ([(0, -5)] : List (Int × Int)), q.1 < 0 ∨ q.2 < 0) ∧
    fast_2d_2col_int_unique
        ⟨NpDtype.int, 2, ([(0, -5)] : List (Int × Int)).map fun q => [q.1, q.2], 2⟩ =
      Except.error NpError.negativeIndexError :=
  ⟨⟨by decide, by decide⟩, fast_2d_2col_int_unique_negative _ (by decide) (by decide)⟩

/-- C9: both dedup utilities raise a type error exactly on non-integer
dtypes; on integer dtypes they raise a shape error exactly on bad
dimensions (and, for the 2-column variant, a wrong column count); a
well-typed, well-shaped 0-row input is returned unchanged by the 2-column
variant. -/
theorem set_ops_check_spec (arr : NpArray2D) :
    (fast_2d_int_unique arr = Except.error NpError.typeError ↔ arr.dtype ≠ NpDtype.int) ∧
    (arr.dtype = NpDtype.int →
      (fast_2d_int_unique arr = Except.error NpError.shapeError ↔ arr.ndim ≠ 2)) ∧
    (fast_2d_2col_int_unique arr = Except.error NpError.typeError ↔ arr.dtype ≠ NpDtype.int) ∧
    (arr.dtype = NpDtype.int →
      (fast_2d_2col_int_unique arr = Except.error NpError.shapeError ↔
        (arr.ndim ≠ 2 ∨ arr.ncols ≠ 2))) ∧
    (arr.dtype = NpDtype.int → arr.ndim = 2 → arr.ncols = 2 → arr.rows = [] →
      fast_2d_2col_int_unique arr = Except.ok []) := by
  obtain ⟨dt, nd, rows, nc⟩ := arr
  refine ⟨?_, ?_, ?_, ?_, ?_⟩ <;>
    cases dt <;>
      by_cases hnd : nd = 2 <;>
        by_cases hnc : nc = 2 <;>
          by_cases hr : rows = [] <;>
            simp [fast_2d_int_unique, fast_2d_2col_int_unique, hnd, hnc, hr, toPairs_nil,
              List.length_eq_zero, (scipy_coo_unique_not_shape (toPairs rows)).1,
              (scipy_coo_unique_not_shape (toPairs rows)).2]

/-- C9 witness: the checks evaluated on a float array (type error) and on
an empty well-typed 2-column array (returned unchanged). -/
theorem set_ops_check_spec_witness :
    fast_2d_int_unique ⟨NpDtype.float, 2, [], 0⟩ = Except.error NpError.typeError ∧
    fast_2d_2col_int_unique ⟨NpDtype.int, 2, [], 2⟩ = Except.ok [] :=
  ⟨(set_ops_check_spec ⟨NpDtype.float, 2, [], 0⟩).1.mpr (by decide),
    (set_ops_check_spec ⟨NpDtype.int, 2, [], 2⟩).2.2.2.2 rfl rfl rfl rfl⟩

/-- C8 counterexample: with the duplicated candidate list `[1, 1]` the two
membership tests disagree on the element `1`: `fast_isin` reports
membership while the sorted variant requires exactly one match. -/
theorem fast_isin_agreement_cex :
    fast_isin [1] [1, 1] ≠
      fast_isin_for_sorted_test_elements [1] (np_sort [1, 1]) false := by decide

/-- C8 (amended with duplicate-free candidates): when the candidate array
has no duplicate values, `fast_isin` agrees elementwise with
`fast_isin_for_sorted_test_elements` applied to the sorted candidates with
`invert = False`. -/
theorem fast_isin_eq_sorted (elements test_elements : List Int)
    (hnd : test_elements.Nodup) :
    fast_isin elements test_elements =
      fast_isin_for_sorted_test_elements elements (np_sort test_elements) false := by
  unfold fast_isin fast_isin_for_sorted_test_elements
  refine List.map_congr_left fun e _ => ?_
  show decide (e ∈ test_elements) =
    decide (searchsorted_right (np_sort test_elements) e =
      searchsorted_left (np_sort test_elements) e + 1)
  rw [decide_eq_decide]
  unfold searchsorted_right searchsorted_left np_sort
  simp only [(List.perm_insertionSort (fun a b : Int => a ≤ b) test_elements).countP_eq]
  rw [countP_le_eq_countP_lt_add_count]
  constructor
  · intro hm
    rw [List.count_eq_one_of_mem hnd hm]
  · intro hc
    by_contra hm
    rw [List.count_eq_zero_of_not_mem hm] at hc
    omega

/-- C8 witness: the amended agreement evaluated on elements `[2, 5]` and
the duplicate-free candidates `[5, 7]`. -/
theorem fast_isin_eq_sorted_witness :
    ([5, 7] : List Int).Nodup ∧
    fast_isin [2, 5] [5, 7] =
      fast_isin_for_sorted_test_elements [2, 5] (np_sort [5, 7]) false :=
  ⟨by decide, fast_isin_eq_sorted [2, 5] [5, 7] (by decide)⟩

/-! ### Claims about the DSSM model -/

/-- C2: both towers compute `W_out (base + residual)` with
`base = act (W_emb x)` and `residual = act (W_dense base)`; the layers are
bias-free matrices, no nonlinearity follows the final projection, and each
tower is a pure function of its own input and parameters. -/
theorem tower_forward_spec {nF dI dU : Nat} (inet : ItemNet nF dI) (unet : UserNet nF dU)
    (x : Fin dI → ℝ) (y : Fin dU → ℝ) :
    inet.forward x =
      specTowerOutput inet.embedding_layer inet.dense_layer inet.output_layer
        inet.activation x ∧
    unet.forward y =
      specTowerOutput unet.embedding_features_layer unet.features_dense_layer unet.output_layer
        unet.activation y :=
  ⟨rfl, rfl⟩

/-- C3 counterexample: reading `forward`'s three positional arguments as
`(user_features, item_features_pos, item_features_neg)` is refuted on the
identity model with inputs 3, 5, 7: the source signature binds them as
`(item_features_pos, item_features_neg, user_features)`, so the anchor
comes from the third argument, not the first. -/
theorem forward_arg_order_cex :
    ¬ (idModel.forward [cVec 3] [cVec 5] [cVec 7] =
        ([cVec 3].map idModel.user_net.forward,
         [cVec 5].map idModel.item_net.forward,
         [cVec 7].map idModel.item_net.forward)) := by
  intro hEq
  have h1 : (idModel.forward [cVec 3] [cVec 5] [cVec 7]).1 =
      [cVec 3].map idModel.user_net.forward := by rw [hEq]
  have h9 : idModel.user_net = idUserNet := rfl
  simp only [DSSMNoInteractions.forward, List.map_cons, List.map_nil, h9,
    idUserNet_forward, List.cons.injEq, and_true] at h1
  have h4 := congrFun h1 0
  simp only [cVec] at h4
  norm_num at h4

/-- C3 (amended to the source's argument order
`(item_features_pos, item_features_neg, user_features)`): `forward` returns
`(UserNet(user_features), ItemNet(pos), ItemNet(neg))`, each output batch
has as many rows as its input batch (rows of width `n_factors` by typing),
and each output depends only on its own tower's input. -/
theorem forward_spec {nFu nFi dU dI : Nat} (m : DSSMNoInteractions nFu nFi dU dI)
    (posB negB : List (Fin dI → ℝ)) (userB : List (Fin dU → ℝ)) :
    m.forward posB negB userB =
      (userB.map m.user_net.forward, posB.map m.item_net.forward,
        negB.map m.item_net.forward) ∧
    (m.forward posB negB userB).1.length = userB.length ∧
    (m.forward posB negB userB).2.1.length = posB.length ∧
    (m.forward posB negB userB).2.2.length = negB.length ∧
    (∀ posB2 negB2, (m.forward posB2 negB2 userB).1 = (m.forward posB negB userB).1) ∧
    (∀ userB2 negB2, (m.forward posB negB2 userB2).2.1 = (m.forward posB negB userB).2.1) ∧
    (∀ userB2 posB2, (m.forward posB2 negB userB2).2.2 = (m.forward posB negB userB).2.2) := by
  refine ⟨rfl, ?_, ?_, ?_, fun _ _ => rfl, fun _ _ => rfl, fun _ _ => rfl⟩ <;>
    simp [DSSMNoInteractions.forward]

/-- C1: on a well-shaped batch, `training_step` returns the mean over the
batch of `max (0, margin + d(anchor, pos) − d(anchor, neg))` with `d` the
Euclidean distance, the anchor from the user tower and pos/neg from the
item tower; the value is non-negative, and `validation_step` computes the
identical value. -/
theorem training_step_spec {nF dU dI : Nat} (m : DSSMNoInteractions nF nF dU dI)
    (u : List (Fin dU → ℝ)) (p n : List (Fin dI → ℝ))
    (hp : p.length = u.length) (hn : n.length = u.length) :
    m.training_step (u, p, n) =
      ((u.zip (p.zip n)).map fun s =>
        max 0 (m.triplet_loss_margin +
          pairwise_distance (m.user_net.forward s.1) (m.item_net.forward s.2.1) -
          pairwise_distance (m.user_net.forward s.1) (m.item_net.forward s.2.2))).sum /
        u.length ∧
    0 ≤ m.training_step (u, p, n) ∧
    m.validation_step (u, p, n) = m.training_step (u, p, n) := by
  refine ⟨?_, triplet_margin_loss_nonneg _ _, rfl⟩
  rw [training_step_eq, zip_map₃]
  unfold triplet_margin_loss
  rw [List.map_map]
  have hlen : ((u.zip (p.zip n)).map fun t =>
      (m.user_net.forward t.1, m.item_net.forward t.2.1, m.item_net.forward t.2.2)).length =
      u.length := by
    simp [List.length_zip, hp, hn]
  rw [hlen]
  congr 1
  refine congrArg List.sum (List.map_congr_left fun t _ => ?_)
  rcases t with ⟨a, b, c⟩
  show max (pairwise_distance _ _ - pairwise_distance _ _ + m.triplet_loss_margin) 0 = _
  rw [max_comm]
  congr 1
  ring

/-- C1 witness: the loss properties evaluated on the identity model with
the one-element batch (3, 5, 7). -/
theorem training_step_spec_witness :
    ([cVec 5].length = [cVec 3].length ∧ [cVec 7].length = [cVec 3].length) ∧
    0 ≤ idModel.training_step ([cVec 3], [cVec 5], [cVec 7]) ∧
    idModel.validation_step ([cVec 3], [cVec 5], [cVec 7]) =
      idModel.training_step ([cVec 3], [cVec 5], [cVec 7]) :=
  ⟨⟨rfl, rfl⟩, (training_step_spec idModel [cVec 3] [cVec 5] [cVec 7] rfl rfl).2⟩

/-- C4 counterexample: on a dataloader yielding zero batches,
`inference_items` does not return a 0-row matrix: the `torch.cat` call
fails on the empty list of per-batch outputs. -/
theorem inference_items_empty_cex :
    (idState.inference_items []).1 = none := rfl

/-- C4 (amended to dataloaders yielding at least one batch): inference
returns the matrix whose rows are the tower outputs of the yielded
elements in iteration order, with row count equal to the total number of
elements yielded across all batches. -/
theorem inference_rows_spec {nFu nFi dU dI : Nat} (s : ModuleState nFu nFi dU dI)
    (dlI : List (List (Fin dI → ℝ))) (dlU : List (List (Fin dU → ℝ)))
    (hI : dlI ≠ []) (hU : dlU ≠ []) :
    (s.inference_items dlI).1 = some (dlI.flatten.map s.model.item_net.forward) ∧
    (∀ v, (s.inference_items dlI).1 = some v → v.length = (dlI.map List.length).sum) ∧
    (s.inference_users dlU).1 = some (dlU.flatten.map s.model.user_net.forward) ∧
    (∀ v, (s.inference_users dlU).1 = some v → v.length = (dlU.map List.length).sum) := by
  have hI2 := torchCat_map s.model.item_net.forward dlI hI
  have hU2 := torchCat_map s.model.user_net.forward dlU hU
  refine ⟨hI2, fun v hv => ?_, hU2, fun v hv => ?_⟩
  · have hv2 : some (dlI.flatten.map s.model.item_net.forward) = some v := hI2.symm.trans hv
    cases hv2
    rw [List.length_map, List.length_flatten]
  · have hv2 : some (dlU.flatten.map s.model.user_net.forward) = some v := hU2.symm.trans hv
    cases hv2
    rw [List.length_map, List.length_flatten]

/-- C4 witness: inference evaluated on the identity model with a
single-batch dataloader on each side. -/
theorem inference_rows_spec_witness :
    (idState.inference_items [[cVec 1]]).1 =
      some ([[cVec 1]].flatten.map idState.model.item_net.forward) ∧
    (idState.inference_users [[cVec 2]]).1 =
      some ([[cVec 2]].flatten.map idState.model.user_net.forward) := by
  have h := inference_rows_spec idState [[cVec 1]] [[cVec 2]] (by simp) (by simp)
  exact ⟨h.1, h.2.2.1⟩

/-- C5: inference leaves every model parameter unchanged (the state after
the call carries the same model, hence the same weight matrices of both
towers), and a repeated call on the resulting state with the same
dataloader contents returns the same factor matrix. -/
theorem inference_frame_spec {nFu nFi dU dI : Nat} (s : ModuleState nFu nFi dU dI)
    (dlI : List (List (Fin dI → ℝ))) (dlU : List (List (Fin dU → ℝ))) :
    (s.inference_items dlI).2.model = s.model ∧
    (s.inference_users dlU).2.model = s.model ∧
    ((s.inference_items dlI).2.inference_items dlI).1 = (s.inference_items dlI).1 ∧
    ((s.inference_users dlU).2.inference_users dlU).1 = (s.inference_users dlU).1 :=
  ⟨rfl, rfl, rfl, rfl⟩
